import Mathlib

/-!
Verification of the `room` HTTP request-builder (package `room`, file
`request.go`) against its design specification.

Go strings are modelled as `List Char` where byte-level slicing matters
(paths, base URLs, query strings, URIs), and as Lean `String` for plain
header/method values.  Collaborator interfaces that are declared but not
implemented in the source under review (`IHeader`, `IQuery`, `IBodyParser`,
`IContextBuilder`, the `Response` constructors, the `URI` wrapper and the
transport) are modelled from the specification, as marked on each
definition.
-/

/-- Modelled from the spec: elapsed-time durations; Go's `time.Second`
expressed in nanoseconds, so that `30 * time.Second` from the source keeps
its literal form. -/
def timeSecond : Nat := 1000000000

/-- Modelled from the spec: a cookie is a name/value record attached
verbatim to the outbound request (`http.Cookie` is outside the reviewed
source). -/
structure Cookie where
  name : String
  value : String
deriving DecidableEq

/-- Modelled from the spec: the header set (`IHeader` has no implementation
in the reviewed source) is an ordered collection of name/value entries;
`Properties()` enumerates exactly these entries in order. -/
structure HeaderSet where
  entries : List (String × String)
deriving DecidableEq

/-- Modelled from the spec: `Merge(other)` folds every key/value pair from
`other` into the receiver without discarding existing entries. -/
def HeaderSet.merge (a b : HeaderSet) : HeaderSet :=
  ⟨a.entries ++ b.entries⟩

/-- Modelled from the spec: the query set (`IQuery` has no implementation in
the reviewed source) is specified only through its canonical query-string
serialization `String()`. -/
structure QuerySet where
  toQueryString : List Char
deriving DecidableEq

/-- Modelled from the spec: a body parser (`IBodyParser` has no
implementation in the reviewed source) yields the request-body byte stream
(`Parse()`) and a content-type string (`ContentType()`, empty meaning
"do not set"). -/
structure BodyParser where
  parse : List Nat
  contentType : String
deriving DecidableEq

/-- Modelled from the spec: `dumpBody`, the no-op default body parser —
empty body bytes and empty content-type (its declaration is outside the
reviewed source). -/
def dumpBody : BodyParser := ⟨[], ""⟩

/-- Modelled from the spec: the execution context bound to one dispatch,
identified by its configured timeout duration. -/
structure Context where
  timeout : Nat
deriving DecidableEq

/-- Modelled from the spec: a context builder (`IContextBuilder` has no
implementation in the reviewed source) holds one configured duration. -/
structure ContextBuilder where
  timeout : Nat
deriving DecidableEq

/-- Modelled from the spec: `NewContextBuilder(d)` fixes the duration `d`. -/
def NewContextBuilder (d : Nat) : ContextBuilder := ⟨d⟩

/-- Modelled from the spec: `Build()` yields a context bounded by the
configured duration. -/
def ContextBuilder.build (cb : ContextBuilder) : Context := ⟨cb.timeout⟩

/-- HTTPMethod is a string type in the source; `GET` is its constant. -/
def GET : String := "GET"

/-- Modelled from the spec: the transport-level request consumed by the
external transport collaborator — (method, URI, bound context, body bytes),
a headers multimap and the attached cookies (`http.Request` is outside the
reviewed source). -/
structure HttpRequest where
  ctx : Context
  method : String
  url : List Char
  body : List Nat
  header : List (String × String)
  cookies : List Cookie
deriving DecidableEq

/-- Modelled from the spec: `http.Header.Add` appends one key/value entry,
replacing nothing. -/
def headerAdd (h : List (String × String)) (k v : String) :
    List (String × String) :=
  h ++ [(k, v)]

/-- Modelled from the spec: `http.Header.Set` replaces every entry stored
under the key by the single supplied value. -/
def headerSet (h : List (String × String)) (k v : String) :
    List (String × String) :=
  h.filter (fun e => !(e.fst == k)) ++ [(k, v)]

/-- Values stored under a key in a headers multimap. -/
def headerValues (h : List (String × String)) (k : String) : List String :=
  (h.filter (fun e => e.fst == k)).map Prod.snd

/-- Modelled from the spec: the data the transport hands back on a completed
round trip — status, headers, body. -/
structure HttpResponseData where
  statusCode : Nat
  header : List (String × String)
  body : List Nat
deriving DecidableEq

/-- Modelled from the spec: one dispatch attempt against the external
transport ends in a transport error or in received response data
(`http.Client.Do` is outside the reviewed source). -/
inductive TransportOutcome where
  | failure (err : String)
  | success (resp : HttpResponseData)
deriving DecidableEq

/-- Modelled from the spec: a `Response` is either the success variant
wrapping the transport result and the original request, or the error
variant wrapping the original request and an error description (the
`Response` type is outside the reviewed source). -/
inductive Response where
  | success (resp : HttpResponseData) (req : HttpRequest)
  | error (req : HttpRequest) (err : String)
deriving DecidableEq

/-- Modelled from the spec: `NewResponse` builds the success variant. -/
def NewResponse (resp : HttpResponseData) (req : HttpRequest) : Response :=
  Response.success resp req

/-- Modelled from the spec: `NewErrorResponse` recovers a transport failure
into the uniform error-response variant carrying the original request and
the failure description; per the propagation policy no error value
accompanies it past `Send()`. -/
def NewErrorResponse (req : HttpRequest) (err : String) :
    Response × Option String :=
  (Response.error req err, none)

/-- The `Request` structure of `request.go`.  `URI` is modelled directly as
its string form (the `URI` wrapper and `NewURI` are outside the reviewed
source; per the spec the resolver's output is the canonical URI string, so
`NewURI`/`URI.String` are the identity on strings). -/
structure Request where
  path : List Char
  URI : List Char
  Method : String
  Header : Option HeaderSet
  Query : Option QuerySet
  BodyParser : Option BodyParser
  contextBuilder : Option ContextBuilder
  Cookies : List Cookie
deriving DecidableEq

/-- Functional option, as in the source. -/
def OptionRequest : Type := Request → Request

/-- `WithMethod` from the source. -/
def WithMethod (method : String) : OptionRequest :=
  fun r => { r with Method := method }

/-- `WithBody` from the source (the interface argument is nil-able). -/
def WithBody (bodyParser : Option BodyParser) : OptionRequest :=
  fun r => { r with BodyParser := bodyParser }

/-- `WithQuery` from the source (the interface argument is nil-able). -/
def WithQuery (query : Option QuerySet) : OptionRequest :=
  fun r => { r with Query := query }

/-- `WithHeader` from the source (the interface argument is nil-able). -/
def WithHeader (header : Option HeaderSet) : OptionRequest :=
  fun r => { r with Header := header }

/-- `WithContextBuilder` from the source. -/
def WithContextBuilder (contextBuilder : Option ContextBuilder) :
    OptionRequest :=
  fun r => { r with contextBuilder := contextBuilder }

/-- `WithCookies` from the source. -/
def WithCookies (cookies : List Cookie) : OptionRequest :=
  fun r => { r with Cookies := cookies }

/-- `NewRequest` from the source: start from the bare path, apply the
options in order, then default the body parser to `dumpBody` and the
method to `GET`. -/
def NewRequest (path : List Char) (opts : List OptionRequest) : Request :=
  let r : Request :=
    { path := path, URI := [], Method := "", Header := none, Query := none,
      BodyParser := none, contextBuilder := none, Cookies := [] }
  let r := opts.foldl (fun r opt => opt r) r
  let r := if r.BodyParser = none then { r with BodyParser := some dumpBody }
           else r
  if r.Method = "" then { r with Method := GET } else r

/-- Step 1 of the base-URL merge in the source: strip one leading `/` from
the path, if present (`strings.HasPrefix(r.path, "/")` then `r.path[1:]`). -/
def stripLeadSlash (p : List Char) : List Char :=
  if (['/'] : List Char).isPrefixOf p then p.drop 1 else p

/-- Step 2 of the base-URL merge in the source: strip one trailing `/` from
the base URL, if present (`strings.HasSuffix(baseUrl, "/")` then
`baseUrl[:len(baseUrl)-1]`). -/
def stripTrailSlash (b : List Char) : List Char :=
  if (['/'] : List Char).isSuffixOf b then b.dropLast else b

/-- The path arithmetic of `Request.SetBaseUrl` in the source.  `none`
models the Go panic: when the stripped path has the stripped base URL as a
prefix, the source slices `r.path[len(baseUrl)+1:]`, which is out of bounds
whenever `len(baseUrl)+1 > len(r.path)`. -/
def mergeBaseUrl (path baseUrl : List Char) : Option (List Char) :=
  let p := stripLeadSlash path
  let b := stripTrailSlash baseUrl
  if b.isPrefixOf p then
    if b.length + 1 ≤ p.length then
      some (b ++ '/' :: p.drop (b.length + 1))
    else
      none
  else
    some (b ++ '/' :: p)

/-- `Request.SetBaseUrl` from the source: rewrite the stored path
(`none` models the out-of-bounds slice panic). -/
def Request.SetBaseUrl (r : Request) (baseUrl : List Char) : Option Request :=
  (mergeBaseUrl r.path baseUrl).map (fun p => { r with path := p })

/-- Base-URL merge as the specification words it (§4.1 steps 1–4), written
as a total function for refinement comparison with `Request.SetBaseUrl`:
strip one leading slash from the path, one trailing slash from the base,
remove a duplicated base prefix together with the following separator, and
reassemble as base, separator, path. -/
def specBaseUrlMerge (path baseUrl : List Char) : List Char :=
  let p := stripLeadSlash path
  let b := stripTrailSlash baseUrl
  let p2 := if b.isPrefixOf p then p.drop (b.length + 1) else p
  b ++ '/' :: p2

/-- `Request.MergeHeader` from the source: a nil argument is a no-op;
with no header set installed yet, adopt the supplied one; otherwise merge
into the existing set. -/
def Request.MergeHeader (r : Request) (header : Option HeaderSet) : Request :=
  match header with
  | none => r
  | some h =>
    match r.Header with
    | none => { r with Header := some h }
    | some e => { r with Header := some (e.merge h) }

/-- `Request.SetContextBuilder` from the source: a nil argument is a no-op,
otherwise the builder is stored. -/
def Request.SetContextBuilder (r : Request) (cb : Option ContextBuilder) :
    Request :=
  match cb with
  | none => r
  | some c => { r with contextBuilder := some c }

/-- The context resolution step of `Request.request` in the source: the
configured builder, or the 30-second default. -/
def buildContext (r : Request) : Context :=
  match r.contextBuilder with
  | some cb => cb.build
  | none => (NewContextBuilder (30 * timeSecond)).build

/-- The URI resolution step of `Request.request` in the source: append the
query string after `?` when the query set is present and serializes
non-empty, otherwise the path alone. -/
def resolveURI (r : Request) : List Char :=
  match r.Query with
  | some q =>
    if q.toQueryString ≠ [] then r.path ++ '?' :: q.toQueryString else r.path
  | none => r.path

/-- The header application step of `Request.request` in the source: each
header-set entry is added (`Add`) onto the transport request's headers. -/
def applyHeaderSet (base : List (String × String)) (h : Option HeaderSet) :
    List (String × String) :=
  match h with
  | some hs => hs.entries.foldl (fun acc kv => headerAdd acc kv.fst kv.snd) base
  | none => base

/-- `Request.request` from the source: build the context, resolve the URI
(storing it back into the `URI` field — the only mutation), construct the
transport request, add the header-set entries, override the content-type
when the body parser reports one, attach the cookies.  `none` models the
nil-pointer panic of calling `Parse()` on a nil body parser. -/
def Request.request (r : Request) : Option (Request × HttpRequest) :=
  match r.BodyParser with
  | none => none
  | some bp =>
    let ctx := buildContext r
    let uri := resolveURI r
    let header1 := applyHeaderSet [] r.Header
    let header2 :=
      if bp.contentType ≠ "" then headerSet header1 "Content-Type" bp.contentType
      else header1
    some ({ r with URI := uri },
      { ctx := ctx, method := r.Method, url := uri, body := bp.parse,
        header := header2, cookies := r.Cookies })

/-- `Request.Send` from the source: build the transport request, perform
one dispatch attempt against the external transport, and normalize:
failures go through `NewErrorResponse`, successes through `NewResponse`
paired with a nil error. -/
def Request.Send (r : Request)
    (transport : HttpRequest → TransportOutcome) :
    Option (Response × Option String) :=
  match r.request with
  | none => none
  | some (_, req) =>
    match transport req with
    | TransportOutcome.failure err => some (NewErrorResponse req err)
    | TransportOutcome.success resp => some (NewResponse resp req, none)

/-! Helper lemmas on `List.isPrefixOf` over characters. -/

theorem isPrefixOf_append_self (B l : List Char) :
    B.isPrefixOf (B ++ l) = true := by
  induction B with
  | nil => simp [List.isPrefixOf]
  | cons c B ih => simp [List.isPrefixOf, ih]

theorem length_le_of_isPrefixOf :
    ∀ (a b : List Char), a.isPrefixOf b = true → a.length ≤ b.length := by
  intro a
  induction a with
  | nil => intro b _; exact Nat.zero_le _
  | cons c a ih =>
    intro b h
    cases b with
    | nil => simp [List.isPrefixOf] at h
    | cons d b =>
      simp only [List.isPrefixOf, Bool.and_eq_true] at h
      simpa using ih b h.2

theorem eq_of_isPrefixOf_length_le :
    ∀ (a b : List Char), a.isPrefixOf b = true → b.length ≤ a.length → a = b := by
  intro a
  induction a with
  | nil =>
    intro b _ hl
    cases b with
    | nil => rfl
    | cons d b => simp at hl
  | cons c a ih =>
    intro b h hl
    cases b with
    | nil => simp [List.isPrefixOf] at h
    | cons d b =>
      simp only [List.isPrefixOf, Bool.and_eq_true, beq_iff_eq] at h
      have := ih b h.2 (by simpa using hl)
      simp [h.1, this]

theorem drop_append_cons (B : List Char) (x : Char) (l : List Char) :
    (B ++ x :: l).drop (B.length + 1) = l := by
  induction B with
  | nil => rfl
  | cons c B ih => simp [ih]

theorem slash_isPrefixOf_cons (c : Char) (t : List Char) :
    (['/'] : List Char).isPrefixOf (c :: t) = ('/' == c) := by
  simp [List.isPrefixOf]

theorem mergeBaseUrl_fixed (c : Char) (B' b rest : List Char)
    (hB : stripTrailSlash b = c :: B')
    (hc : ('/' == c) = false) :
    mergeBaseUrl ((c :: B') ++ '/' :: rest) b =
      some ((c :: B') ++ '/' :: rest) := by
  have hlead : stripLeadSlash ((c :: B') ++ '/' :: rest) =
      (c :: B') ++ '/' :: rest := by
    simp [stripLeadSlash, slash_isPrefixOf_cons, hc]
  have hpre : (c :: B').isPrefixOf ((c :: B') ++ '/' :: rest) = true :=
    isPrefixOf_append_self _ _
  have hlen : (c :: B').length + 1 ≤ ((c :: B') ++ '/' :: rest).length := by
    simp
  have hdrop : ((c :: B') ++ '/' :: rest).drop ((c :: B').length + 1) = rest :=
    drop_append_cons _ _ _
  simp only [mergeBaseUrl, hB, hlead]
  rw [if_pos hpre, if_pos hlen, hdrop]

theorem mergeBaseUrl_idem (p q b : List Char)
    (hb : stripTrailSlash b ≠ [])
    (hb2 : (['/'] : List Char).isPrefixOf (stripTrailSlash b) = false)
    (h : mergeBaseUrl p b = some q) :
    mergeBaseUrl q b = some q := by
  obtain ⟨c, B', hB⟩ : ∃ c B', stripTrailSlash b = c :: B' := by
    cases hx : stripTrailSlash b with
    | nil => exact absurd hx hb
    | cons c B' => exact ⟨c, B', rfl⟩
  have hc : ('/' == c) = false := by
    rw [hB, slash_isPrefixOf_cons] at hb2
    exact hb2
  obtain ⟨rest, hq⟩ : ∃ rest, q = (c :: B') ++ '/' :: rest := by
    simp only [mergeBaseUrl, hB] at h
    split at h
    · split at h
      · exact ⟨_, (Option.some.inj h).symm⟩
      · exact absurd h (by simp)
    · exact ⟨_, (Option.some.inj h).symm⟩
  rw [hq]
  exact mergeBaseUrl_fixed c B' b rest hB hc

/-- C1 (amended): for base URLs whose trailing-slash-stripped form is
non-empty and does not itself begin with a slash, `SetBaseUrl` is
idempotent: whenever one application succeeds, applying it again with the
same base leaves the stored path unchanged. -/
theorem SetBaseUrl_idempotent (r r₁ : Request) (b : List Char)
    (hb : stripTrailSlash b ≠ [])
    (hb2 : (['/'] : List Char).isPrefixOf (stripTrailSlash b) = false)
    (h : r.SetBaseUrl b = some r₁) :
    r₁.SetBaseUrl b = some r₁ := by
  unfold Request.SetBaseUrl at h ⊢
  cases hm : mergeBaseUrl r.path b with
  | none => rw [hm] at h; simp at h
  | some q =>
    rw [hm] at h
    simp only [Option.map_some'] at h
    have hr₁ : r₁ = { r with path := q } := (Option.some.inj h).symm
    subst hr₁
    have h2 := mergeBaseUrl_idem r.path q b hb hb2 hm
    show (mergeBaseUrl q b).map _ = _
    rw [h2]
    rfl

/-- Concrete request with path `users` used by the base-URL examples. -/
def reqUsers : Request := NewRequest "users".data []

/-- Result of merging base `api` into `reqUsers`. -/
def reqUsersApi : Request := { reqUsers with path := "api/users".data }

/-- C1 counterexample: with base URL `/api` (a leading slash, which the
claim allows), one application of `SetBaseUrl` to path `users` stores
`/api/users`, but a second application with the same base stores
`/api/api/users` — not the same path. -/
theorem SetBaseUrl_twice_differs :
    (reqUsers.SetBaseUrl "/api".data).map Request.path =
      some "/api/users".data ∧
    ((reqUsers.SetBaseUrl "/api".data).bind
        (fun r => r.SetBaseUrl "/api".data)).map Request.path =
      some "/api/api/users".data ∧
    ("/api/api/users".data : List Char) ≠ "/api/users".data := by
  decide

/-- C1 witness: idempotence at path `users`, base `api`. -/
theorem SetBaseUrl_idempotent_witness :
    stripTrailSlash "api".data ≠ [] ∧
    (['/'] : List Char).isPrefixOf (stripTrailSlash "api".data) = false ∧
    reqUsers.SetBaseUrl "api".data = some reqUsersApi ∧
    reqUsersApi.SetBaseUrl "api".data = some reqUsersApi :=
  ⟨by decide, by decide, by decide,
    SetBaseUrl_idempotent reqUsers reqUsersApi "api".data (by decide)
      (by decide) (by decide)⟩

/-- C8 (amended): whenever the slash-stripped path differs from the
slash-stripped base URL, `SetBaseUrl` performs exactly the four documented
steps — strip one leading slash from the path, strip one trailing slash
from the base, drop a duplicated base prefix together with the following
separator, reassemble as base, separator, path; when the stripped path
equals the stripped base, the prefix-removal slice is out of bounds and the
call panics instead of reaching the reassembly step. -/
theorem SetBaseUrl_follows_spec_steps (r : Request) (b : List Char)
    (h : stripLeadSlash r.path ≠ stripTrailSlash b) :
    r.SetBaseUrl b = some { r with path := specBaseUrlMerge r.path b } := by
  simp only [Request.SetBaseUrl, specBaseUrlMerge, mergeBaseUrl]
  by_cases hpre :
      (stripTrailSlash b).isPrefixOf (stripLeadSlash r.path) = true
  · have hlt : (stripTrailSlash b).length < (stripLeadSlash r.path).length := by
      rcases Nat.lt_or_ge (stripTrailSlash b).length
          (stripLeadSlash r.path).length with h1 | h1
      · exact h1
      · exact absurd (eq_of_isPrefixOf_length_le _ _ hpre h1).symm h
    have hle :
        (stripTrailSlash b).length + 1 ≤ (stripLeadSlash r.path).length := hlt
    rw [if_pos hpre, if_pos hle, if_pos hpre]
    rfl
  · rw [if_neg hpre, if_neg hpre]
    rfl

/-- Concrete request with path `v1` used by the C8 counterexample. -/
def reqV1 : Request := NewRequest "v1".data []

/-- C8 counterexample: with path `v1` and base URL `v1`, the source never
reaches the reassembly step — the slice `r.path[len(baseUrl)+1:]` is out of
bounds and the call panics — while the documented steps would produce
`v1/`. -/
theorem SetBaseUrl_no_reassembly_on_equal :
    reqV1.SetBaseUrl "v1".data = none ∧
    specBaseUrlMerge "v1".data "v1".data = "v1/".data := by
  decide

/-- C8 witness: the four steps at path `users`, base `api/`. -/
theorem SetBaseUrl_follows_spec_steps_witness :
    stripLeadSlash reqUsers.path ≠ stripTrailSlash "api/".data ∧
    reqUsers.SetBaseUrl "api/".data =
      some { reqUsers with path := specBaseUrlMerge reqUsers.path "api/".data } :=
  ⟨by decide, SetBaseUrl_follows_spec_steps reqUsers "api/".data (by decide)⟩

theorem mergeBaseUrl_eq_none_iff (p b : List Char) :
    mergeBaseUrl p b = none ↔ stripLeadSlash p = stripTrailSlash b := by
  simp only [mergeBaseUrl]
  by_cases hpre : (stripTrailSlash b).isPrefixOf (stripLeadSlash p) = true
  · by_cases hlen :
        (stripTrailSlash b).length + 1 ≤ (stripLeadSlash p).length
    · rw [if_pos hpre, if_pos hlen]
      constructor
      · intro h; exact absurd h (by simp)
      · intro h; rw [h] at hlen; omega
    · rw [if_pos hpre, if_neg hlen]
      have heq : stripTrailSlash b = stripLeadSlash p :=
        eq_of_isPrefixOf_length_le _ _ hpre (by omega)
      simp [heq]
  · rw [if_neg hpre]
    constructor
    · intro h; exact absurd h (by simp)
    · intro h
      exfalso
      apply hpre
      rw [h]
      have h2 := isPrefixOf_append_self (stripTrailSlash b) []
      rw [List.append_nil] at h2
      exact h2

/-- C9 (amended): `SetBaseUrl` returns normally exactly when the
slash-stripped path differs from the slash-stripped base URL; when they
coincide, the slice `r.path[len(baseUrl)+1:]` taken while removing the
duplicated prefix exceeds the path's bounds and the call panics. -/
theorem SetBaseUrl_total_iff (r : Request) (b : List Char) :
    (r.SetBaseUrl b).isSome = true ↔
      stripLeadSlash r.path ≠ stripTrailSlash b := by
  unfold Request.SetBaseUrl
  rw [Option.isSome_map']
  rw [Option.isSome_iff_ne_none, Ne, Ne]
  exact not_congr (mergeBaseUrl_eq_none_iff r.path b)

/-- Concrete request with path `api` used by the C9 counterexample. -/
def reqApi : Request := NewRequest "api".data []

/-- C9 counterexample: with path `api` and base URL `api` the stripped path
equals the stripped base, the slice index `len(baseUrl)+1 = 4` exceeds the
path length 3, and `SetBaseUrl` panics instead of returning. -/
theorem SetBaseUrl_panics_on_equal_base :
    reqApi.SetBaseUrl "api".data = none := by
  decide

/-- C2: for every Request whose assembly succeeds, `Send` returns exactly
one of the two Response variants — the error variant carrying the built
transport request and the failure description when the transport fails,
and the success variant (whatever the status code) when it succeeds — and
in both cases the accompanying error value is nil, so no error propagates
past `Send` for ordinary transport failures. -/
theorem Send_dichotomy (r r' : Request) (req : HttpRequest)
    (transport : HttpRequest → TransportOutcome)
    (h : r.request = some (r', req)) :
    r.Send transport =
      some (match transport req with
        | TransportOutcome.failure err =>
            (Response.error req err, (none : Option String))
        | TransportOutcome.success resp =>
            (Response.success resp req, (none : Option String))) := by
  cases ht : transport req with
  | failure err => simp [Request.Send, h, ht, NewErrorResponse]
  | success resp => simp [Request.Send, h, ht, NewResponse]

/-- Concrete bare request with path `x`, its assembled form, and its
assembled transport request, used by the dispatch examples. -/
def reqX : Request := NewRequest "x".data []

/-- The `reqX` value after URI resolution. -/
def reqXResolved : Request := { reqX with URI := "x".data }

/-- The transport request assembled from `reqX`. -/
def httpReqX : HttpRequest :=
  { ctx := ⟨30 * timeSecond⟩, method := "GET", url := "x".data,
    body := [], header := [], cookies := [] }

/-- C2 witness: dispatching the bare `x` request against a transport that
refuses the connection yields the error-response variant and a nil error. -/
theorem Send_dichotomy_witness :
    reqX.request = some (reqXResolved, httpReqX) ∧
    reqX.Send (fun _ => TransportOutcome.failure "connection refused") =
      some (Response.error httpReqX "connection refused",
        (none : Option String)) := by
  refine ⟨by decide, ?_⟩
  have h := Send_dichotomy reqX reqXResolved httpReqX
    (fun _ => TransportOutcome.failure "connection refused") (by decide)
  exact h

theorem foldl_headerAdd (l : List (String × String)) :
    ∀ base, l.foldl (fun acc kv => headerAdd acc kv.fst kv.snd) base =
      base ++ l := by
  induction l with
  | nil => intro base; simp
  | cons kv l ih =>
    intro base
    rw [List.foldl_cons, ih]
    simp [headerAdd]

theorem applyHeaderSet_some (base : List (String × String)) (hs : HeaderSet) :
    applyHeaderSet base (some hs) = base ++ hs.entries := by
  simp [applyHeaderSet, foldl_headerAdd]

theorem headerValues_headerSet (h : List (String × String)) (k v : String) :
    headerValues (headerSet h k v) k = [v] := by
  simp only [headerValues, headerSet, List.filter_append]
  have h1 : (h.filter (fun e => !(e.fst == k))).filter
      (fun e => e.fst == k) = [] := by
    induction h with
    | nil => rfl
    | cons e h ih =>
      by_cases he : (e.fst == k) = true
      · simp [List.filter, he, ih]
      · simp [List.filter, he, ih]
  rw [h1]
  simp

/-- C3: when the request has a header set containing a Content-Type entry
and a body parser, the assembled transport request carries the parser's
content-type as the sole Content-Type value whenever the parser reports a
non-empty one, and keeps the header set's entry in place when the parser
reports the empty string. -/
theorem contentType_precedence (r r' : Request) (req : HttpRequest)
    (bp : BodyParser) (hs : HeaderSet) (v : String)
    (hbp : r.BodyParser = some bp) (hhs : r.Header = some hs)
    (hmem : ("Content-Type", v) ∈ hs.entries)
    (hreq : r.request = some (r', req)) :
    (bp.contentType ≠ "" →
      headerValues req.header "Content-Type" = [bp.contentType]) ∧
    (bp.contentType = "" → ("Content-Type", v) ∈ req.header) := by
  simp only [Request.request, hbp, Option.some.injEq, Prod.mk.injEq] at hreq
  obtain ⟨h1, h2⟩ := hreq
  subst h2
  constructor
  · intro hct
    show headerValues (if bp.contentType ≠ "" then _ else _) _ = _
    rw [if_pos hct]
    exact headerValues_headerSet _ _ _
  · intro hct
    show ("Content-Type", v) ∈ (if bp.contentType ≠ "" then _ else _)
    rw [if_neg (by simp [hct])]
    rw [hhs, applyHeaderSet_some]
    simpa using hmem

/-- Concrete header set declaring a generic Content-Type entry. -/
def hsPlain : HeaderSet := ⟨[("Content-Type", "text/plain")]⟩

/-- Concrete JSON body parser (empty body, JSON content-type). -/
def bpJson : BodyParser := ⟨[], "application/json"⟩

/-- Concrete request with both a header-set content-type and a body-parser
content-type. -/
def reqU : Request :=
  NewRequest "u".data [WithHeader (some hsPlain), WithBody (some bpJson)]

/-- The `reqU` value after URI resolution. -/
def reqUResolved : Request := { reqU with URI := "u".data }

/-- The transport request assembled from `reqU`. -/
def httpReqU : HttpRequest :=
  { ctx := ⟨30 * timeSecond⟩, method := "GET", url := "u".data, body := [],
    header := [("Content-Type", "application/json")], cookies := [] }

/-- C3 witness: a `text/plain` header-set entry loses to the body parser's
`application/json`. -/
theorem contentType_precedence_witness :
    reqU.request = some (reqUResolved, httpReqU) ∧
    headerValues httpReqU.header "Content-Type" = ["application/json"] := by
  refine ⟨by decide, ?_⟩
  have h := contentType_precedence reqU reqUResolved httpReqU bpJson hsPlain
    "text/plain" (by decide) (by decide) (by decide) (by decide)
  exact h.1 (by decide)

/-- C4: at assembly time the resolved URI stored in the Request equals the
stored path followed by `?` and the query string when the query set is
present and serializes non-empty, and equals the stored path alone when the
query set is absent or serializes to the empty string; the transport
request targets exactly that URI. -/
theorem query_append_law (r r' : Request) (req : HttpRequest)
    (h : r.request = some (r', req)) :
    (∀ q, r.Query = some q → q.toQueryString ≠ [] →
      r'.URI = r.path ++ '?' :: q.toQueryString) ∧
    (∀ q, r.Query = some q → q.toQueryString = [] → r'.URI = r.path) ∧
    (r.Query = none → r'.URI = r.path) ∧
    req.url = r'.URI := by
  cases hbp : r.BodyParser with
  | none => rw [Request.request, hbp] at h; exact absurd h (by simp)
  | some bp =>
    simp only [Request.request, hbp, Option.some.injEq, Prod.mk.injEq] at h
    obtain ⟨h1, h2⟩ := h
    subst h1
    subst h2
    refine ⟨?_, ?_, ?_, rfl⟩
    · intro q hq hne
      show resolveURI r = _
      simp [resolveURI, hq, hne]
    · intro q hq hemp
      show resolveURI r = _
      simp [resolveURI, hq, hemp]
    · intro hq
      show resolveURI r = _
      simp [resolveURI, hq]

/-- Concrete query set serializing to `a=1`. -/
def qA1 : QuerySet := ⟨"a=1".data⟩

/-- Concrete request with path `p` and query `a=1`. -/
def reqP : Request := NewRequest "p".data [WithQuery (some qA1)]

/-- The `reqP` value after URI resolution. -/
def reqPResolved : Request := { reqP with URI := "p?a=1".data }

/-- The transport request assembled from `reqP`. -/
def httpReqP : HttpRequest :=
  { ctx := ⟨30 * timeSecond⟩, method := "GET", url := "p?a=1".data,
    body := [], header := [], cookies := [] }

/-- C4 witness: path `p` with query `a=1` resolves to `p?a=1`. -/
theorem query_append_law_witness :
    reqP.request = some (reqPResolved, httpReqP) ∧
    reqPResolved.URI = "p".data ++ '?' :: "a=1".data ∧
    httpReqP.url = reqPResolved.URI := by
  refine ⟨by decide, ?_, ?_⟩
  · have h := query_append_law reqP reqPResolved httpReqP (by decide)
    exact h.1 qA1 (by decide) (by decide)
  · have h := query_append_law reqP reqPResolved httpReqP (by decide)
    exact h.2.2.2

/-- C5: a Request built by `NewRequest` with zero options has method `GET`,
the no-op default body parser (empty body bytes and empty content-type), no
header set, no query set, no cookies, no configured context builder, and
the context its assembly builds carries the default 30-second timeout. -/
theorem NewRequest_defaults (p : List Char) :
    (NewRequest p []).Method = GET ∧
    (NewRequest p []).BodyParser = some dumpBody ∧
    dumpBody.parse = [] ∧
    dumpBody.contentType = "" ∧
    (NewRequest p []).Header = none ∧
    (NewRequest p []).Query = none ∧
    (NewRequest p []).Cookies = [] ∧
    (NewRequest p []).contextBuilder = none ∧
    ((NewRequest p []).request).map (fun x => x.snd.ctx) =
      some ((NewContextBuilder (30 * timeSecond)).build) :=
  ⟨rfl, rfl, rfl, rfl, rfl, rfl, rfl, rfl, rfl⟩

/-- C6: merging a non-nil header set into a Request: when no header set is
installed the supplied set itself becomes the Request's header set; when
one exists the supplied set is merged into it; every other field of the
Request is unchanged. -/
theorem MergeHeader_semantics (r : Request) (h : HeaderSet) :
    (r.MergeHeader (some h)).Header =
      some (match r.Header with
        | none => h
        | some e => e.merge h) ∧
    (r.MergeHeader (some h)).path = r.path ∧
    (r.MergeHeader (some h)).URI = r.URI ∧
    (r.MergeHeader (some h)).Method = r.Method ∧
    (r.MergeHeader (some h)).Query = r.Query ∧
    (r.MergeHeader (some h)).BodyParser = r.BodyParser ∧
    (r.MergeHeader (some h)).contextBuilder = r.contextBuilder ∧
    (r.MergeHeader (some h)).Cookies = r.Cookies := by
  cases hH : r.Header with
  | none => simp [Request.MergeHeader, hH]
  | some e => simp [Request.MergeHeader, hH]

/-- C7: assembling the transport request is side-effect-free on the stored
options: the Request coming out of assembly differs from the one going in
only in the recomputed `URI` field — path, method, header set, query set,
body parser, context builder and cookies are unchanged — and assembling
again from it rebuilds the identical transport request. -/
theorem request_frame (r : Request) (bp : BodyParser)
    (h : r.BodyParser = some bp) :
    ∃ r' req, r.request = some (r', req) ∧
      r' = { r with URI := resolveURI r } ∧
      r'.path = r.path ∧ r'.Method = r.Method ∧ r'.Header = r.Header ∧
      r'.Query = r.Query ∧ r'.BodyParser = r.BodyParser ∧
      r'.contextBuilder = r.contextBuilder ∧ r'.Cookies = r.Cookies ∧
      r'.request = some (r', req) := by
  refine ⟨{ r with URI := resolveURI r },
    { ctx := buildContext r, method := r.Method, url := resolveURI r,
      body := bp.parse,
      header := if bp.contentType ≠ "" then
          headerSet (applyHeaderSet [] r.Header) "Content-Type" bp.contentType
        else applyHeaderSet [] r.Header,
      cookies := r.Cookies }, ?_, rfl, rfl, rfl, rfl, rfl, rfl, rfl, rfl, ?_⟩
  · simp [Request.request, h]
  · simp [Request.request, resolveURI, buildContext, h]

/-- C7 witness: assembling the bare `x` request is a pure recomputation. -/
theorem request_frame_witness :
    reqX.BodyParser = some dumpBody ∧
    (∃ r' req, reqX.request = some (r', req) ∧
      r' = { reqX with URI := resolveURI reqX } ∧
      r'.path = reqX.path ∧ r'.Method = reqX.Method ∧
      r'.Header = reqX.Header ∧ r'.Query = reqX.Query ∧
      r'.BodyParser = reqX.BodyParser ∧
      r'.contextBuilder = reqX.contextBuilder ∧
      r'.Cookies = reqX.Cookies ∧
      r'.request = some (r', req)) :=
  ⟨by decide, request_frame reqX dumpBody (by decide)⟩

/-- C10: a nil context-builder argument to `SetContextBuilder` and a nil
header-set argument to `MergeHeader` are no-ops: the Request comes back
with every field unchanged. -/
theorem nil_arguments_noop (r : Request) :
    r.SetContextBuilder none = r ∧ r.MergeHeader none = r :=
  ⟨rfl, rfl⟩
